import Mathlib

/-!
Shallow embedding of the book/table resolution engine of `src/lib/books.py`
(classes `Page`, `GroupOfPages`, `Book`, `TableEntry`, `Table`, `Library`),
together with proofs checking the natural-language specification against it.

Randomness of the external dice evaluator (`rolldice.roll_dice`) is modelled
by an oracle stream `σ : Nat → Int` together with a running call counter:
the n-th evaluator call returns `σ n`.  Python exceptions are modelled with
`Option` / `Except`.
-/

namespace Books

/-- Whether the first list is an initial segment of the second. -/
def leadMatch : List Char → List Char → Bool
  | [], _ => true
  | _ :: _, [] => false
  | p :: ps, c :: cs => p = c && leadMatch ps cs

/-- One step list used by `pyReplace`: Python `str.replace` scans left to
right and replaces every non-overlapping occurrence of the pattern.  The
first argument is fuel (the length of the scanned list suffices because the
patterns used by the code are non-empty). -/
def pyReplaceAux : Nat → List Char → List Char → List Char → List Char
  | 0, s, _, _ => s
  | Nat.succ n, s, pat, rep =>
    match s with
    | [] => []
    | c :: rest =>
      if leadMatch pat s then rep ++ pyReplaceAux n (s.drop pat.length) pat rep
      else c :: pyReplaceAux n rest pat rep

/-- Python `s.replace(pat, rep)` for non-empty `pat`: leftmost,
non-overlapping, single pass. -/
def pyReplace (s pat rep : String) : String :=
  String.mk (pyReplaceAux s.data.length s.data pat.data rep.data)

/-- Value of a non-empty all-digit character list. -/
def digitsVal (cs : List Char) : Option Nat :=
  if cs ≠ [] ∧ cs.all Char.isDigit then
    some (cs.foldl (fun acc c => 10 * acc + (c.toNat - 48)) 0)
  else none

/-- Python `int(s)` on the id strings used by the code: an optional sign
followed by at least one digit; anything else raises `ValueError` (`none`). -/
def pyInt (s : String) : Option Int :=
  match s.data with
  | '-' :: [] => none
  | '-' :: rest => (digitsVal rest).map (fun n => -(n : Int))
  | '+' :: [] => none
  | '+' :: rest => (digitsVal rest).map (fun n => (n : Int))
  | cs => (digitsVal cs).map (fun n => (n : Int))

/-- Python `s.split("-")` on the character list: split at every dash,
keeping empty pieces. -/
def splitDash : List Char → List (List Char)
  | [] => [[]]
  | c :: rest =>
    if c = '-' then [] :: splitDash rest
    else
      match splitDash rest with
      | [] => [[c]]
      | g :: gs => (c :: g) :: gs

/-- `Page.id_as_range` / `GroupOfPages.id_as_range`: split the id on `"-"`;
a single piece `"N"` denotes `range(N, N+1)`, two or more pieces use the
first two as `range(A, B+1)`.  We return the inclusive bounds `(A, B)`;
`none` models the `ValueError` raised on a malformed id. -/
def idAsRange (id : String) : Option (Int × Int) :=
  match (splitDash id.data).map String.mk with
  | [v] => (pyInt v).map (fun i => (i, i))
  | v0 :: v1 :: _ => do
      let a ← pyInt v0
      let b ← pyInt v1
      pure (a, b)
  | [] => none

/-- Membership of an integer in the inclusive range returned by
`idAsRange` (Python `rid in range(a, b+1)`). -/
def inRange (r : Int × Int) (x : Int) : Bool :=
  decide (r.1 ≤ x) && decide (x ≤ r.2)

/-- The unconditional cleanup at the end of `TableEntry.result`:
strip remaining `#a`, `#`, `$` markers and collapse double spaces once. -/
def stripMarkers (d : String) : String :=
  pyReplace (pyReplace (pyReplace (pyReplace d "#a" "") "#" "") "$" "") "  " " "

/-- The count-dependent part of `TableEntry.result` followed by the
unconditional cleanup, exactly as the code orders the `str.replace` calls. -/
def resolveDetails (count : Int) (details : String) : String :=
  let d1 :=
    if count = 1 then pyReplace details "#" "un"
    else if 1 < count then
      pyReplace (pyReplace (pyReplace (pyReplace (pyReplace details
        "#a" (toString count)) "#" (toString count)) "a$(-es)" "es") "$(es)" "es") "$" "s"
    else details
  stripMarkers d1

mutual
/-- A loaded table (`Table`): die expression, optional `forced_roll`,
result operation `rop` (default `"replace"` is applied at load), and the
`_pages` dict as an insertion-ordered list of slots. -/
inductive Tbl : Type where
  | mk (die : String) (forced : Option Int) (rop : String) (slots : List Slot)

/-- One value of the `_pages` dict: a single `TableEntry` or a
`GroupOfPages` (its id together with its member pages in insertion order). -/
inductive Slot : Type where
  | single (e : TEntry)
  | group (gid : String) (pages : List TEntry)

/-- A loaded `TableEntry`: its `Id`, optional `Details`, optional `Number`
and optional nested `Table` attributes (`none` models an absent attribute;
for `Table` it also models the falsy `None` value). -/
inductive TEntry : Type where
  | mk (eid : String) (det : Option String) (num : Option String) (sub : Option Tbl)
end

def TEntry.eid : TEntry → String
  | .mk i _ _ _ => i

def TEntry.det : TEntry → Option String
  | .mk _ d _ _ => d

def TEntry.num : TEntry → Option String
  | .mk _ _ n _ => n

def TEntry.sub : TEntry → Option Tbl
  | .mk _ _ _ s => s

def Tbl.die : Tbl → String
  | .mk d _ _ _ => d

def Tbl.forced : Tbl → Option Int
  | .mk _ f _ _ => f

def Tbl.rop : Tbl → String
  | .mk _ _ r _ => r

def Tbl.slots : Tbl → List Slot
  | .mk _ _ _ s => s

/-- `TableEntry.result`: read `Details` (attribute error if absent), then
if a truthy `Number` is present evaluate it (consuming one oracle value),
and resolve the template.  Returns the text and the next call counter. -/
def entryResult (σ : Nat → Int) (k : Nat) (e : TEntry) : Option (String × Nat) :=
  match e.det with
  | none => none
  | some d =>
    match e.num with
    | some n =>
      if n = "" then some (resolveDetails 0 d, k)
      else some (resolveDetails (σ k) d, k + 1)
    | none => some (resolveDetails 0 d, k)

/-- Pages carried by one slot of the `_pages` dict; a group is expanded
into its constituent pages (`Table.find`). -/
def slotPages : Slot → List TEntry
  | .single e => [e]
  | .group _ ps => ps

/-- `id_as_range` of the object stored in the slot: for a group this uses
the group id, not the member pages' ids. -/
def slotRange : Slot → Option (Int × Int)
  | .single e => idAsRange e.eid
  | .group gid _ => idAsRange gid

/-- `Table.find(rid)`: scan the `_pages` values in insertion order and
collect the pages of every slot whose `id_as_range` contains `rid`,
expanding groups.  `none` models a `ValueError` on a malformed id. -/
def findEntries (rid : Int) : List Slot → Option (List TEntry)
  | [] => some []
  | s :: rest =>
    match slotRange s with
    | none => none
    | some r =>
      match findEntries rid rest with
      | none => none
      | some tail => some (if inRange r rid then slotPages s ++ tail else tail)

/-- Modelled from the spec wording of `FindMatching(rolledId)`: expand all
groups first, then keep every entry whose own `IdAsRange()` contains the
rolled id, in book order.  Used as the spec side of the refinement claim
about `Table.find`. -/
def filterInRange (rid : Int) : List TEntry → Option (List TEntry)
  | [] => some []
  | e :: rest =>
    match idAsRange e.eid with
    | none => none
    | some r =>
      match filterInRange rid rest with
      | none => none
      | some tail => some (if inRange r rid then e :: tail else tail)

/-- The spec-side reading of `FindMatching` over a slot list. -/
def specFindMatching (rid : Int) (slots : List Slot) : Option (List TEntry) :=
  filterInRange rid ((slots.map slotPages).flatten)

/-- Well-formedness of a slot, guaranteed by `Book.load`: a group is
non-empty and all member pages carry the group id. -/
def slotWF : Slot → Bool
  | .single _ => true
  | .group gid ps => !ps.isEmpty && ps.all (fun e => e.eid == gid)

/-- The rolled id used by `Table.roll`: the evaluator result, overridden
by a truthy `forced_roll`. -/
def pickRid (forced : Option Int) (rolled : Int) : Int :=
  match forced with
  | some f => if f ≠ 0 then f else rolled
  | none => rolled

/-- The entry loop of `Table.roll`, abstracted over the sub-table roll
function `sub`: resolve each entry's text, roll a nested table when one is
attached, merge by the sub-table's `rop` only when the sub-result is
truthy, and accumulate `result + "\n" + cresult`. -/
def rollLoopF (sub : Nat → Tbl → Option (String × List String × Nat)) (σ : Nat → Int) :
    Nat → List TEntry → String → List String → Option (String × List String × Nat)
  | k, [], acc, expl => some (acc, expl, k)
  | k, e :: rest, acc, expl =>
    match entryResult σ k e with
    | none => none
    | some (cres0, k1) =>
      match e.sub with
      | none => rollLoopF sub σ k1 rest (acc ++ "\n" ++ cres0) expl
      | some st =>
        match sub k1 st with
        | none => none
        | some (sres, sexpl, k2) =>
          if sres = "" then rollLoopF sub σ k2 rest (acc ++ "\n" ++ cres0) expl
          else
            let cres :=
              if st.rop = "replace" then sres
              else if st.rop = "append" then cres0 ++ "\n" ++ sres
              else if st.rop = "concat" then cres0 ++ sres
              else cres0
            rollLoopF sub σ k2 rest (acc ++ "\n" ++ cres) (expl ++ sexpl)

/-- `Table.roll()` with a fuel bound on nesting depth (the loaded data is a
finite tree, so enough fuel always exists; fuel `0` returns `none`).  The
evaluator is always consulted for the table die, even when `forced_roll`
overrides the value; the explanation head shows the die expression. -/
def rollTblF (σ : Nat → Int) : Nat → Nat → Tbl → Option (String × List String × Nat)
  | 0, _, _ => none
  | Nat.succ fuel, k, t =>
    let rid := pickRid t.forced (σ k)
    match findEntries rid t.slots with
    | none => none
    | some es =>
      rollLoopF (fun k2 st => rollTblF σ fuel k2 st) σ (k + 1) es ""
        [t.die ++ " -> **" ++ toString rid ++ "**"]

/-- The raw record of one element of a book document's `Pages` list (only
the fields the claims exercise; `none` models an absent key). -/
structure PageRec where
  pid : Option String
  det : Option String
  num : Option String

/-- Key lookup in the insertion-ordered association list modelling the
`_pages` dict. -/
def lookupSlot (k : String) : List (String × Slot) → Option Slot
  | [] => none
  | (k0, s) :: rest => if k0 = k then some s else lookupSlot k rest

/-- `Book.load`'s per-page insertion into the `_pages` dict: a fresh id is
appended; a second page under an existing single page promotes the slot to
a `GroupOfPages` in place; a third page under an existing group calls the
non-existent method `GroupOfPages.add` and raises `AttributeError`. -/
def insertPage (pages : List (String × Slot)) (pid : String) (e : TEntry) :
    Except String (List (String × Slot)) :=
  match lookupSlot pid pages with
  | none => .ok (pages ++ [(pid, .single e)])
  | some (.single e0) =>
      .ok (pages.map (fun kv => if kv.1 = pid then (pid, Slot.group e0.eid [e0, e]) else kv))
  | some (.group _ _) =>
      .error "AttributeError: GroupOfPages object has no attribute add"

/-- The page loop of `Book.load`: make a page from each record (reading its
`Id` attribute raises `AttributeError` when the key is absent) and insert
it. -/
def pagesInsert : List (String × Slot) → List PageRec → Except String (List (String × Slot))
  | acc, [] => .ok acc
  | acc, r :: rest =>
    match r.pid with
    | none => .error "AttributeError: Page object has no attribute Id"
    | some pid =>
      match insertPage acc pid (TEntry.mk pid r.det r.num none) with
      | .error e => .error e
      | .ok acc2 => pagesInsert acc2 rest

/-- `Book.load` with `load_pages` set: build the `_pages` dict. -/
def bookLoadPages (rs : List PageRec) : Except String (List (String × Slot)) :=
  pagesInsert [] rs

/-- The raw record of one book document (only the keys the code reads). -/
structure BookRec where
  bid : Option String
  title : Option String
  btype : Option Int
  pages : Option (List PageRec)
  die : Option String
  forced : Option Int
  rop : Option String

/-- A successfully constructed book, as produced by `Library.add_book`. -/
inductive LoadedBook : Type where
  | monster (bid title : String) (pages : List (String × Slot))
  | table (bid title : String) (pages : List (String × Slot)) (die : String)
      (forced : Option Int) (rop : String)

def LoadedBook.bid : LoadedBook → String
  | .monster b _ _ => b
  | .table b _ _ _ _ _ => b

/-- `Library.add_book`: construct a plain `Book` (requiring `Id`, `Title`
and a valid `Type`), then reconstruct as `MonsterBook` or `Table` which
loads the pages; a `Table` additionally requires `Die` (checked after the
pages are inserted) and defaults `rop` to `"replace"`. -/
def addBook (r : BookRec) : Except String LoadedBook :=
  match r.bid with
  | none => .error "KeyError: Id"
  | some bid =>
  match r.title with
  | none => .error "KeyError: Title"
  | some title =>
  match r.btype with
  | none => .error "KeyError: Type"
  | some ty =>
  if ty = 1 then
    match r.pages with
    | none => .error "KeyError: Pages"
    | some prs =>
      match bookLoadPages prs with
      | .error e => .error e
      | .ok ps => .ok (.monster bid title ps)
  else if ty = 2 then
    match r.pages with
    | none => .error "KeyError: Pages"
    | some prs =>
      match bookLoadPages prs with
      | .error e => .error e
      | .ok ps =>
        match r.die with
        | none => .error "KeyError: Die"
        | some die => .ok (.table bid title ps die r.forced (r.rop.getD "replace"))
  else .error "ValueError: invalid BookType"

/-- `Library.load` over already-globbed, already-parsed documents: every
document is added in order; any exception simply propagates, aborting the
whole load. -/
def libraryLoad : List BookRec → Except String (List (String × LoadedBook))
  | [] => .ok []
  | r :: rest =>
    match addBook r with
    | .error e => .error e
    | .ok b =>
      match libraryLoad rest with
      | .error e => .error e
      | .ok tail => .ok ((b.bid, b) :: tail)

/-- Whether an `Except` computation succeeded. -/
def exceptOk {α : Type} : Except String α → Bool
  | .ok _ => true
  | .error _ => false

/-- Newline-prefixed concatenation: the accumulation shape of
`Table.roll`'s `result = result + "\n" + cresult` loop. -/
def catNl : List String → String
  | [] => ""
  | r :: rs => "\n" ++ r ++ catNl rs

/-- Resolved texts accumulated by the roll loop over entries that carry no
truthy `Number` and no nested table. -/
def trivialAcc (es : List TEntry) (acc : String) : String :=
  match es with
  | [] => acc
  | e :: rest => trivialAcc rest (acc ++ "\n" ++ resolveDetails 0 (e.det.getD ""))

/- Concrete fixtures used by counterexamples and witnesses. -/

/-- An inner table entry. -/
def eInner : TEntry := .mk "1" (some "inner") none none

/-- A sub-table whose forced roll matches no entry, so its roll result is
the empty string. -/
def stEmptyRoll : Tbl := .mk "1d4" (some 5) "replace" [.single eInner]

/-- An entry that dispatches to `stEmptyRoll` with policy `replace`. -/
def eDispatch : TEntry := .mk "1" (some "outer") none (some stEmptyRoll)

/-- A forced-roll table whose single matching entry carries the nested
table `stEmptyRoll`. -/
def tDispatch : Tbl := .mk "1d6" (some 1) "replace" [.single eDispatch]

/-- An entry whose `Number` is a dice expression, so resolving it consumes
real randomness even under a forced table roll. -/
def eNumbered : TEntry := .mk "1" (some "#") (some "1d4") none

/-- A forced-roll table whose matching entry still rolls its `Number`. -/
def tNumbered : Tbl := .mk "1d6" (some 1) "replace" [.single eNumbered]

/-- A plain entry with fixed text. -/
def ePlain : TEntry := .mk "1" (some "foo") none none

/-- A forced-roll table with a single plain matching entry. -/
def tPlain : Tbl := .mk "1d6" (some 1) "replace" [.single ePlain]

/-- A page record with id `"1"`. -/
def pOne : PageRec := ⟨some "1", some "Gob", none⟩

/-- The table entry made from `pOne`. -/
def eOne : TEntry := .mk "1" (some "Gob") none none

/-- Invariant tying a `_pages` dict value to its key, maintained by
`Book.load`: a single page carries the key as id; a group carries the key
as group id, is non-empty, and all members carry the key as id. -/
def slotKeyed (key : String) : Slot → Prop
  | .single e => e.eid = key
  | .group gid ps => gid = key ∧ ps ≠ [] ∧ ∀ e ∈ ps, e.eid = key

/-- First member of a two-page group with id `"2-3"`. -/
def eG1 : TEntry := .mk "2-3" (some "g1") none none

/-- Second member of the `"2-3"` group. -/
def eG2 : TEntry := .mk "2-3" (some "g2") none none

/-- A single entry with the overlapping range `"1-3"`. -/
def eS : TEntry := .mk "1-3" (some "s") none none

/-- A slot list with a group and an overlapping single entry. -/
def sC1 : List Slot := [.group "2-3" [eG1, eG2], .single eS]

/-- A well-formed table document. -/
def goodRec : BookRec := ⟨some "b1", some "T", some 2, some [pOne], some "1d6", none, none⟩

/-- A table document missing its `Die` field. -/
def badRec : BookRec := ⟨some "b2", some "U", some 2, some [pOne], none, none, none⟩

/-- Claim C10: a `TableEntry` whose `Number` field is present but the empty
string resolves exactly like one with no `Number` at all: the dice
evaluator is never consulted (the call counter is unchanged), the count is
treated as `0`, and the template only undergoes the unconditional
`#a`/`#`/`$` stripping and double-space cleanup. -/
theorem emptyNumber_like_absent (σ : Nat → Int) (k : Nat)
    (i d : String) (s : Option Tbl) :
    entryResult σ k (TEntry.mk i (some d) (some "") s)
      = entryResult σ k (TEntry.mk i (some d) none s) ∧
    entryResult σ k (TEntry.mk i (some d) (some "") s) = some (resolveDetails 0 d, k) ∧
    resolveDetails 0 d = stripMarkers d := by
  refine ⟨rfl, rfl, rfl⟩

/-- Claim C6 counterexample: with a count of exactly `1` the code replaces
`#` with the Catalan word `"un"`, not the English word `"one"`: the
template `"#"` resolves to `"un"`. -/
theorem singularWord_cex :
    resolveDetails 1 "#" = "un" ∧ "un" ≠ "one" := by
  exact ⟨rfl, by decide⟩

/-- Claim C6 as amended: when `Number` evaluates to exactly `1`, every `#`
token in `Details` is replaced by the word `"un"` (the bot's Catalan
singular marker) before the unconditional stripping and space cleanup. -/
theorem singularWord (σ : Nat → Int) (k : Nat) (i d n : String) (s : Option Tbl)
    (hn : n ≠ "") (hσ : σ k = 1) :
    entryResult σ k (TEntry.mk i (some d) (some n) s)
      = some (stripMarkers (pyReplace d "#" "un"), k + 1) := by
  simp [entryResult, TEntry.det, TEntry.num, hn, hσ, resolveDetails]

/-- Witness for `singularWord` at a concrete entry. -/
theorem singularWord_witness :
    entryResult (fun _ => 1) 0 (TEntry.mk "1" (some "#a goblin$") (some "1d4") none)
      = some (stripMarkers (pyReplace "#a goblin$" "#" "un"), 1) :=
  singularWord (fun _ => 1) 0 "1" "#a goblin$" "1d4" none (by decide) rfl

/-- Claim C5: when `Number` evaluates to a count greater than `1`, the
substitutions are applied to `Details` in this exact order — `#a` to the
count, remaining `#` to the count, the irregular-plural markers
`a$(-es)` and `$(es)` to `"es"`, and only then remaining `$` to `"s"` —
followed by the unconditional stripping and double-space cleanup; in
particular `"bruix$(es)"` with count `2` resolves to `"bruixes"`. -/
theorem pluralPipeline (σ : Nat → Int) (k : Nat) (i d n : String) (s : Option Tbl)
    (hn : n ≠ "") (hc : 1 < σ k) :
    entryResult σ k (TEntry.mk i (some d) (some n) s)
      = some (stripMarkers
          (pyReplace (pyReplace (pyReplace (pyReplace (pyReplace d
            "#a" (toString (σ k))) "#" (toString (σ k)))
            "a$(-es)" "es") "$(es)" "es") "$" "s"), k + 1) ∧
    resolveDetails 2 "bruix$(es)" = "bruixes" := by
  have h1 : σ k ≠ 1 := by omega
  refine ⟨?_, rfl⟩
  simp [entryResult, TEntry.det, TEntry.num, hn, resolveDetails, h1, hc]

/-- Witness for `pluralPipeline` at a concrete entry and count `2`. -/
theorem pluralPipeline_witness :
    (entryResult (fun _ => 2) 0 (TEntry.mk "1" (some "bruix$(es)") (some "1d4") none)
      = some (stripMarkers
          (pyReplace (pyReplace (pyReplace (pyReplace (pyReplace "bruix$(es)"
            "#a" (toString ((fun (_ : Nat) => (2 : Int)) 0))) "#"
            (toString ((fun (_ : Nat) => (2 : Int)) 0)))
            "a$(-es)" "es") "$(es)" "es") "$" "s"), 1) ∧
      resolveDetails 2 "bruix$(es)" = "bruixes") :=
  pluralPipeline (fun _ => 2) 0 "1" "bruix$(es)" "1d4" none (by decide) (by decide)

/-- Claim C9 counterexample: `Page` construction validates nothing.  A page
whose `Id` is the reverse range `"5-3"` loads successfully even though its
range is empty (`3 < 5`), and a page whose `Id` is the unparsable `"abc"`
also loads successfully — contradicting the claim that malformed ids and
reverse ranges are load-time errors and that every loaded page has a
non-empty integer range. -/
theorem idValidation_cex :
    exceptOk (bookLoadPages [PageRec.mk (some "5-3") (some "x") none]) = true ∧
    idAsRange "5-3" = some (5, 3) ∧ (3 : Int) < 5 ∧
    exceptOk (bookLoadPages [PageRec.mk (some "abc") (some "x") none]) = true ∧
    idAsRange "abc" = none := by
  refine ⟨rfl, rfl, by decide, rfl, rfl⟩

/-- Claim C9 as amended: loading performs no `Id` validation.  Any page
with an `Id` string loads as-is; only an absent `Id` fails at load (the
load loop reads the attribute as the dict key).  A reverse range yields an
empty range that contains no integer, and a malformed id raises only when
`id_as_range` is first evaluated, i.e. during `Table.find` at roll time. -/
theorem idValidation_amended (pid qid : String) (d n : Option String)
    (a b x rid : Int) (hab : b < a) (hbad : idAsRange qid = none) :
    bookLoadPages [PageRec.mk (some pid) d n]
      = .ok [(pid, .single (TEntry.mk pid d n none))] ∧
    inRange (a, b) x = false ∧
    bookLoadPages [PageRec.mk none d n]
      = .error "AttributeError: Page object has no attribute Id" ∧
    findEntries rid [.single (TEntry.mk qid d n none)] = none := by
  refine ⟨rfl, ?_, rfl, ?_⟩
  · simp only [inRange, Bool.and_eq_false_iff, decide_eq_false_iff_not]
    omega
  · simp [findEntries, slotRange, TEntry.eid, hbad]

/-- Witness for `idValidation_amended` at the ids `"5-3"` and `"abc"`. -/
theorem idValidation_amended_witness :
    bookLoadPages [PageRec.mk (some "5-3") (some "x") none]
      = .ok [("5-3", .single (TEntry.mk "5-3" (some "x") none none))] ∧
    inRange (5, 3) 4 = false ∧
    bookLoadPages [PageRec.mk none (some "x") none]
      = .error "AttributeError: Page object has no attribute Id" ∧
    findEntries 1 [.single (TEntry.mk "abc" (some "x") none none)] = none :=
  idValidation_amended "5-3" "abc" (some "x") none 5 3 4 1 (by decide) (by decide)

/-- Claim C4 (code bug): inserting a second page with an already-used id
does promote the slot to a single `GroupOfPages` holding both pages in
insertion order, but inserting a third page with the same id crashes with
`AttributeError` because `GroupOfPages` defines no `add` method, instead of
appending to the group as the load loop (and the spec) intends. -/
theorem groupPromotion_crash :
    bookLoadPages [pOne, pOne] = .ok [("1", Slot.group "1" [eOne, eOne])] ∧
    bookLoadPages [pOne, pOne, pOne]
      = .error "AttributeError: GroupOfPages object has no attribute add" := by
  exact ⟨rfl, rfl⟩

/-- Claim C3 counterexample: a well-formed table document loads on its own,
but loading it together with a document missing `Die` raises `KeyError`
and aborts the whole library load — there is no catch, so no one-book
library results. -/
theorem partialLoad_cex :
    exceptOk (addBook goodRec) = true ∧
    libraryLoad [goodRec, badRec] = .error "KeyError: Die" := by
  exact ⟨rfl, rfl⟩

/-- Claim C3 as amended: a failure on one document is not caught by
`Library.load`; the exception propagates and aborts the entire load, so a
directory with one well-formed table document and one malformed document
(missing `Die`) yields a load error rather than a one-book library. -/
theorem loadAborts (pre post : List BookRec) (r : BookRec) (e : String)
    (hpre : ∀ d ∈ pre, exceptOk (addBook d) = true) (hr : addBook r = .error e) :
    libraryLoad (pre ++ r :: post) = .error e := by
  induction pre with
  | nil => simp [libraryLoad, hr]
  | cons d ds ih =>
    have hd := hpre d (by simp)
    cases hday : addBook d with
    | error e2 => rw [hday] at hd; simp [exceptOk] at hd
    | ok b =>
      have hrest := ih (fun x hx => hpre x (by simp [hx]))
      simp [libraryLoad, hday, hrest]

/-- Witness for `loadAborts`: the two-document library from the claim. -/
theorem loadAborts_witness :
    libraryLoad ([goodRec] ++ badRec :: []) = .error "KeyError: Die" :=
  loadAborts [goodRec] [] badRec "KeyError: Die" (by decide) rfl

/-- Definitional equation of `rollLoopF` on a non-empty entry list. -/
theorem rollLoopF_cons (sub : Nat → Tbl → Option (String × List String × Nat))
    (σ : Nat → Int) (k : Nat) (e : TEntry) (rest : List TEntry)
    (acc : String) (expl : List String) :
    rollLoopF sub σ k (e :: rest) acc expl =
      match entryResult σ k e with
      | none => none
      | some (cres0, k1) =>
        match e.sub with
        | none => rollLoopF sub σ k1 rest (acc ++ "\n" ++ cres0) expl
        | some st =>
          match sub k1 st with
          | none => none
          | some (sres, sexpl, k2) =>
            if sres = "" then rollLoopF sub σ k2 rest (acc ++ "\n" ++ cres0) expl
            else
              let cres :=
                if st.rop = "replace" then sres
                else if st.rop = "append" then cres0 ++ "\n" ++ sres
                else if st.rop = "concat" then cres0 ++ sres
                else cres0
              rollLoopF sub σ k2 rest (acc ++ "\n" ++ cres) (expl ++ sexpl) := rfl

/-- The roll loop over entries with no truthy `Number` and no nested table
consumes no randomness and accumulates the resolved texts. -/
theorem rollLoopF_trivial (sub : Nat → Tbl → Option (String × List String × Nat))
    (σ : Nat → Int) (es : List TEntry)
    (htriv : ∀ e ∈ es, (e.num = none ∨ e.num = some "") ∧ e.sub = none ∧ e.det.isSome) :
    ∀ k acc expl, rollLoopF sub σ k es acc expl = some (trivialAcc es acc, expl, k) := by
  induction es with
  | nil => intro k acc expl; rfl
  | cons e rest ih =>
    intro k acc expl
    obtain ⟨hnum, hsub, hdet⟩ := htriv e (List.mem_cons_self e rest)
    obtain ⟨d, hd⟩ := Option.isSome_iff_exists.mp hdet
    have ihr := ih (fun x hx => htriv x (List.mem_cons_of_mem e hx))
    rcases hnum with h | h
    · simp [rollLoopF, entryResult, hd, h, hsub, ihr, trivialAcc]
    · simp [rollLoopF, entryResult, hd, h, hsub, ihr, trivialAcc]

/-- The roll loop only ever appends to the running explanation. -/
theorem rollLoopF_expl_grows (sub : Nat → Tbl → Option (String × List String × Nat))
    (σ : Nat → Int) (es : List TEntry) :
    ∀ k acc expl res expl2 k2,
      rollLoopF sub σ k es acc expl = some (res, expl2, k2) →
      ∃ tl, expl2 = expl ++ tl := by
  induction es with
  | nil =>
    intro k acc expl res expl2 k2 h
    simp [rollLoopF] at h
    exact ⟨[], by simp [h.2.1.symm]⟩
  | cons e rest ih =>
    intro k acc expl res expl2 k2 h
    rw [rollLoopF_cons] at h
    split at h
    · simp at h
    · split at h
      · exact ih _ _ _ _ _ _ h
      · split at h
        · simp at h
        · split at h
          · exact ih _ _ _ _ _ _ h
          · rename_i sres sexpl k3 heq hne
            obtain ⟨tl, htl⟩ := ih _ _ _ _ _ _ h
            exact ⟨sexpl ++ tl, by simp [htl]⟩

/-- Whatever the entries do, the accumulated result has the shape
`acc` followed by a newline-prefixed block per processed entry. -/
theorem rollLoopF_shape (sub : Nat → Tbl → Option (String × List String × Nat))
    (σ : Nat → Int) (es : List TEntry) :
    ∀ k acc expl res expl2 k2,
      rollLoopF sub σ k es acc expl = some (res, expl2, k2) →
      ∃ rs : List String, rs.length = es.length ∧ res = acc ++ catNl rs := by
  induction es with
  | nil =>
    intro k acc expl res expl2 k2 h
    simp [rollLoopF] at h
    exact ⟨[], rfl, by rw [← h.1]; simp [catNl, String.append_empty]⟩
  | cons e rest ih =>
    intro k acc expl res expl2 k2 h
    rw [rollLoopF_cons] at h
    split at h
    · simp at h
    · rename_i cres0 k1 heq1
      split at h
      · obtain ⟨rs, hlen, hres⟩ := ih _ _ _ _ _ _ h
        refine ⟨cres0 :: rs, by simp [hlen], ?_⟩
        rw [hres]
        simp [catNl, String.append_assoc]
      · split at h
        · simp at h
        · rename_i st hsub x2 sres sexpl k3 heq2
          split at h
          · obtain ⟨rs, hlen, hres⟩ := ih _ _ _ _ _ _ h
            refine ⟨cres0 :: rs, by simp [hlen], ?_⟩
            rw [hres]
            simp [catNl, String.append_assoc]
          · obtain ⟨rs, hlen, hres⟩ := ih _ _ _ _ _ _ h
            refine ⟨(if st.rop = "replace" then sres
                else if st.rop = "append" then cres0 ++ "\n" ++ sres
                else if st.rop = "concat" then cres0 ++ sres
                else cres0) :: rs, by simp [hlen], ?_⟩
            rw [hres]
            simp [catNl, String.append_assoc]

/-- Claim C2 counterexample: when the nested table's roll result is the
empty string, `Table.roll` neither applies the combination policy nor
appends the sub-explanation: rolling `tDispatch` (whose matching entry
dispatches with policy `replace` to a sub-table that resolves to `""`)
keeps the entry's own text `"outer"` instead of replacing it with `""`,
and the sub-roll's explanation line `"1d4 -> **5**"` never appears. -/
theorem subMerge_cex :
    rollTblF (fun _ => 0) 2 0 tDispatch = some ("\nouter", ["1d6 -> **1**"], 2) ∧
    ("\nouter" : String) ≠ "\n" ∧
    (["1d6 -> **1**"] : List String) ≠ ["1d6 -> **1**", "1d4 -> **5**"] := by
  refine ⟨rfl, by decide, by decide⟩

/-- Claim C2 as amended: for a matching entry with a nested table, the
sub-roll's result is merged and its explanation appended only when the
sub-result is non-empty (truthy): `replace` then yields the sub-result,
`append` yields the entry text, a newline and the sub-result, `concat`
yields the two concatenated, and the sub-explanation lines are appended to
the running explanation regardless of the policy; when the sub-result is
the empty string the entry's own text is kept under every policy and the
sub-explanation is dropped. -/
theorem subMerge (sub : Nat → Tbl → Option (String × List String × Nat))
    (σ : Nat → Int) (k : Nat) (i d : String) (st : Tbl) (rest : List TEntry)
    (acc : String) (expl sexpl : List String) (sres : String) (k2 : Nat)
    (hsub : sub k st = some (sres, sexpl, k2)) :
    (sres = "" →
      rollLoopF sub σ k (TEntry.mk i (some d) none (some st) :: rest) acc expl
        = rollLoopF sub σ k2 rest (acc ++ "\n" ++ resolveDetails 0 d) expl) ∧
    (sres ≠ "" →
      rollLoopF sub σ k (TEntry.mk i (some d) none (some st) :: rest) acc expl
        = rollLoopF sub σ k2 rest
            (acc ++ "\n" ++
              (if st.rop = "replace" then sres
               else if st.rop = "append" then resolveDetails 0 d ++ "\n" ++ sres
               else if st.rop = "concat" then resolveDetails 0 d ++ sres
               else resolveDetails 0 d))
            (expl ++ sexpl)) := by
  constructor
  · intro hs
    simp [rollLoopF, entryResult, TEntry.det, TEntry.num, TEntry.sub, hsub, hs]
  · intro hs
    simp [rollLoopF, entryResult, TEntry.det, TEntry.num, TEntry.sub, hsub, hs]

/-- Witness for `subMerge` with a concrete sub-roll returning `"S"`. -/
theorem subMerge_witness :
    (("S" : String) = "" →
      rollLoopF (fun n _ => some ("S", ["L"], n)) (fun _ => 0) 0
          (TEntry.mk "1" (some "x") none (some stEmptyRoll) :: []) "" ["H"]
        = rollLoopF (fun n _ => some ("S", ["L"], n)) (fun _ => 0) 0 []
            ("" ++ "\n" ++ resolveDetails 0 "x") ["H"]) ∧
    (("S" : String) ≠ "" →
      rollLoopF (fun n _ => some ("S", ["L"], n)) (fun _ => 0) 0
          (TEntry.mk "1" (some "x") none (some stEmptyRoll) :: []) "" ["H"]
        = rollLoopF (fun n _ => some ("S", ["L"], n)) (fun _ => 0) 0 []
            ("" ++ "\n" ++
              (if stEmptyRoll.rop = "replace" then "S"
               else if stEmptyRoll.rop = "append" then resolveDetails 0 "x" ++ "\n" ++ "S"
               else if stEmptyRoll.rop = "concat" then resolveDetails 0 "x" ++ "S"
               else resolveDetails 0 "x"))
            (["H"] ++ ["L"])) :=
  subMerge (fun n _ => some ("S", ["L"], n)) (fun _ => 0) 0 "1" "x" stEmptyRoll []
    "" ["H"] ["L"] "S" 0 rfl

/-- Claim C7 counterexample: `tNumbered` has a non-empty forced roll, yet
two calls that draw different evaluator values for the matching entry's
`Number` expression return different results — repeated rolls on a
forced-roll table are not deterministic. -/
theorem forcedRoll_cex :
    tNumbered.forced = some 1 ∧ (1 : Int) ≠ 0 ∧
    rollTblF (fun _ => 2) 1 0 tNumbered ≠ rollTblF (fun _ => 3) 1 0 tNumbered := by
  refine ⟨rfl, by decide, by decide⟩

/-- Claim C8 counterexample: `tPlain`'s single matching entry resolves to
`"foo"`, but `Table.roll` returns `"\nfoo"` — each entry's text is
prefixed by a newline, including the first, so the result is not the
matching texts joined by newline. -/
theorem resultJoin_cex :
    rollTblF (fun _ => 0) 1 0 tPlain = some ("\nfoo", ["1d6 -> **1**"], 1) ∧
    ("\nfoo" : String) ≠ "foo" := by
  refine ⟨rfl, by decide⟩

/-- Claim C7 as amended: with a non-empty `forced_roll` the rolled id is
always the forced value and `explanation[0]` always shows the real die
expression with that id, independently of the evaluator; the full
`(result, explanation)` pair is moreover identical across calls whenever
no matching entry carries a truthy `Number` or a nested table — otherwise
entry-level dice rolls still consume real randomness and repeated calls
may differ. -/
theorem forcedRoll_deterministic (σ σ2 : Nat → Int) (fuel fuel2 k k2 : Nat)
    (die die2 rop rop2 : String) (f : Int) (slots slots2 : List Slot) (es : List TEntry)
    (res : String) (expl : List String) (kf : Nat)
    (hf : f ≠ 0) (hfind : findEntries f slots = some es)
    (htriv : ∀ e ∈ es, (e.num = none ∨ e.num = some "") ∧ e.sub = none ∧ e.det.isSome)
    (hroll : rollTblF σ2 (Nat.succ fuel2) k2 (Tbl.mk die2 (some f) rop2 slots2)
      = some (res, expl, kf)) :
    rollTblF σ (Nat.succ fuel) k (Tbl.mk die (some f) rop slots)
      = some (trivialAcc es "", [die ++ " -> **" ++ toString f ++ "**"], k + 1) ∧
    expl.head? = some (die2 ++ " -> **" ++ toString f ++ "**") := by
  constructor
  · simp only [rollTblF, Tbl.forced, Tbl.slots, Tbl.die, pickRid]
    simp [hf, hfind, rollLoopF_trivial _ σ es htriv]
  · simp only [rollTblF, Tbl.forced, Tbl.slots, Tbl.die, pickRid] at hroll
    simp only [hf, ne_eq, not_false_eq_true, if_true] at hroll
    split at hroll
    · exact absurd hroll (by simp)
    · obtain ⟨tl, htl⟩ := rollLoopF_expl_grows _ _ _ _ _ _ _ _ _ hroll
      simp [htl]

/-- Witness for `forcedRoll_deterministic` on a one-entry forced table. -/
theorem forcedRoll_deterministic_witness :
    (rollTblF (fun _ => 7) (Nat.succ 0) 0 (Tbl.mk "1d6" (some 1) "replace" [.single ePlain])
      = some (trivialAcc [ePlain] "", ["1d6" ++ " -> **" ++ toString (1 : Int) ++ "**"], 0 + 1)) ∧
    (["1d6 -> **1**"] : List String).head?
      = some ("1d6" ++ " -> **" ++ toString (1 : Int) ++ "**") :=
  forcedRoll_deterministic (fun _ => 7) (fun _ => 9) 0 0 0 0 "1d6" "1d6" "replace" "replace"
    1 [.single ePlain] [.single ePlain] [ePlain] "\nfoo" ["1d6 -> **1**"] 1
    (by decide) rfl
    (by intro e he; simp at he; subst he; exact ⟨Or.inl rfl, rfl, rfl⟩)
    rfl

/-- Claim C8 as amended: the returned result is, over the matching entries
in order, the concatenation of a newline followed by each entry's resolved
text — newline-prefixed rather than newline-joined, so any non-empty match
yields a result beginning with a newline; when no entries match the result
is the empty string, returned as a normal outcome rather than an error. -/
theorem rollResult_shape (σ : Nat → Int) (fuel k : Nat) (t : Tbl) :
    (findEntries (pickRid t.forced (σ k)) t.slots = some [] →
      rollTblF σ (Nat.succ fuel) k t
        = some ("", [t.die ++ " -> **" ++ toString (pickRid t.forced (σ k)) ++ "**"], k + 1)) ∧
    (∀ res expl kf, rollTblF σ (Nat.succ fuel) k t = some (res, expl, kf) →
      ∃ es rs, findEntries (pickRid t.forced (σ k)) t.slots = some es ∧
        rs.length = es.length ∧ res = catNl rs) := by
  constructor
  · intro h
    simp [rollTblF, h, rollLoopF]
  · intro res expl kf h
    simp only [rollTblF] at h
    split at h
    · exact absurd h (by simp)
    · rename_i es hfe
      obtain ⟨rs, hlen, hres⟩ := rollLoopF_shape _ _ _ _ _ _ _ _ _ h
      exact ⟨es, rs, hfe, hlen, by rwa [String.empty_append] at hres⟩

/-- Witness for `rollResult_shape` on the one-entry forced table. -/
theorem rollResult_shape_witness :
    (findEntries (pickRid tPlain.forced ((fun _ => (0 : Int)) 0)) tPlain.slots = some [] →
      rollTblF (fun _ => (0 : Int)) (Nat.succ 0) 0 tPlain
        = some ("", [tPlain.die ++ " -> **"
            ++ toString (pickRid tPlain.forced ((fun _ => (0 : Int)) 0)) ++ "**"], 0 + 1)) ∧
    (∀ res expl kf, rollTblF (fun _ => (0 : Int)) (Nat.succ 0) 0 tPlain
        = some (res, expl, kf) →
      ∃ es rs, findEntries (pickRid tPlain.forced ((fun _ => (0 : Int)) 0)) tPlain.slots
          = some es ∧ rs.length = es.length ∧ res = catNl rs) :=
  rollResult_shape (fun _ => 0) 0 0 tPlain

/-- Filtering a block of entries that all carry the same id checks that
one id's range for the whole block. -/
theorem filterInRange_block (rid : Int) (gid : String) (r : Int × Int)
    (ps l : List TEntry) (hps : ∀ e ∈ ps, e.eid = gid) (hr : idAsRange gid = some r) :
    filterInRange rid (ps ++ l)
      = (filterInRange rid l).map
          (fun tail => if inRange r rid then ps ++ tail else tail) := by
  induction ps with
  | nil =>
    simp only [List.nil_append, List.nil_append]
    cases hl : filterInRange rid l with
    | none => rfl
    | some tail => simp
  | cons e ps ih =>
    have he : e.eid = gid := hps e (List.mem_cons_self e ps)
    have ihr := ih (fun x hx => hps x (List.mem_cons_of_mem e hx))
    simp only [List.cons_append, filterInRange, he, hr, List.append_eq]
    rw [ihr]
    cases hl : filterInRange rid l with
    | none => rfl
    | some tail =>
      cases hc : inRange r rid with
      | false => simp [hc]
      | true => simp [hc]

/-- Filtering a non-empty block whose shared id is malformed raises, just
as checking the block's range does. -/
theorem filterInRange_block_bad (rid : Int) (gid : String)
    (e : TEntry) (ps l : List TEntry) (he : e.eid = gid) (hr : idAsRange gid = none) :
    filterInRange rid ((e :: ps) ++ l) = none := by
  simp [filterInRange, he, hr]

/-- One step of the `find` / spec-filter correspondence: checking a slot's
own range and then emitting all its pages is the same as filtering the
expanded pages one by one, provided the pages share the slot id and the
slot is non-empty. -/
theorem findEntries_step (rid : Int) (gid : String) (ps l : List TEntry)
    (hps : ∀ e ∈ ps, e.eid = gid) (hne : ps ≠ []) :
    (match idAsRange gid with
     | none => none
     | some r =>
       match filterInRange rid l with
       | none => none
       | some tail => some (if inRange r rid then ps ++ tail else tail))
      = filterInRange rid (ps ++ l) := by
  cases hr : idAsRange gid with
  | none =>
    cases ps with
    | nil => exact absurd rfl hne
    | cons e ps =>
      rw [filterInRange_block_bad rid gid e ps l (hps e (List.mem_cons_self e ps)) hr]
  | some r =>
    rw [filterInRange_block rid gid r ps l hps hr]
    cases hl : filterInRange rid l with
    | none => rfl
    | some tail => rfl

/-- `Table.find` computes exactly the spec's `FindMatching`: expand every
group into its pages and keep each entry whose own `IdAsRange()` contains
the rolled id, in book order — given the load invariant that groups are
non-empty and their members share the group id. -/
theorem findEntries_eq_spec (rid : Int) (slots : List Slot)
    (hwf : ∀ s ∈ slots, slotWF s = true) :
    findEntries rid slots = specFindMatching rid slots := by
  induction slots with
  | nil => rfl
  | cons s rest ih =>
    have hs := hwf s (List.mem_cons_self s rest)
    have ihr := ih (fun x hx => hwf x (List.mem_cons_of_mem s hx))
    simp only [specFindMatching, List.map_cons, List.flatten_cons] at ihr ⊢
    cases s with
    | single e =>
      simp only [findEntries, slotRange, slotPages, ihr]
      exact findEntries_step rid e.eid [e] _ (by simp) (by simp)
    | group gid ps =>
      simp only [slotWF, Bool.and_eq_true, Bool.not_eq_eq_eq_not, Bool.not_true,
        List.all_eq_true, beq_iff_eq] at hs
      obtain ⟨hne, hall⟩ := hs
      simp only [findEntries, slotRange, slotPages, ihr]
      refine findEntries_step rid gid ps _ hall ?_
      intro hnil
      rw [hnil] at hne
      simp at hne

/-- A successful association-list lookup finds an entry under that key. -/
theorem lookup_mem_slot (k : String) (s : Slot) :
    ∀ l : List (String × Slot), lookupSlot k l = some s → (k, s) ∈ l := by
  intro l
  induction l with
  | nil => intro h; simp [lookupSlot] at h
  | cons kv rest ih =>
    obtain ⟨k0, s0⟩ := kv
    intro h
    rw [lookupSlot] at h
    by_cases hk : k0 = k
    · rw [if_pos hk] at h
      have hs : s0 = s := by injection h
      subst hs
      subst hk
      exact List.mem_cons_self _ _
    · rw [if_neg hk] at h
      exact List.mem_cons_of_mem _ (ih h)

/-- `Book.load`'s insertion step preserves the key/slot invariant. -/
theorem insertPage_keyed (acc acc2 : List (String × Slot)) (pid : String) (e : TEntry)
    (hacc : ∀ kv ∈ acc, slotKeyed kv.1 kv.2) (he : e.eid = pid)
    (h : insertPage acc pid e = .ok acc2) :
    ∀ kv ∈ acc2, slotKeyed kv.1 kv.2 := by
  rw [insertPage] at h
  split at h
  · injection h with h2
    subst h2
    intro kv hkv
    rcases List.mem_append.mp hkv with hold | hnew
    · exact hacc kv hold
    · have hkv2 : kv = (pid, Slot.single e) := by simpa using hnew
      subst hkv2
      exact he
  · rename_i s0 e0 hlk
    injection h with h2
    subst h2
    have he0 : e0.eid = pid := hacc (pid, .single e0) (lookup_mem_slot pid _ acc hlk)
    intro kv hkv
    obtain ⟨kv0, hkv0, hmap⟩ := List.mem_map.mp hkv
    by_cases hk : kv0.1 = pid
    · rw [if_pos hk] at hmap
      subst hmap
      refine ⟨he0, by simp, ?_⟩
      intro x hx
      have hx2 : x = e0 ∨ x = e := by simpa using hx
      rcases hx2 with hx3 | hx3
      · subst hx3; exact he0
      · subst hx3; exact he
    · rw [if_neg hk] at hmap
      subst hmap
      exact hacc kv0 hkv0
  · exact Except.noConfusion h

/-- The page loop of `Book.load` preserves the key/slot invariant. -/
theorem pagesInsert_keyed (rs : List PageRec) :
    ∀ acc l, (∀ kv ∈ acc, slotKeyed kv.1 kv.2) → pagesInsert acc rs = .ok l →
      ∀ kv ∈ l, slotKeyed kv.1 kv.2 := by
  induction rs with
  | nil =>
    intro acc l hacc h
    rw [pagesInsert] at h
    injection h with h2
    subst h2
    exact hacc
  | cons r rest ih =>
    intro acc l hacc h
    rw [pagesInsert] at h
    split at h
    · exact Except.noConfusion h
    · rename_i pid hpid
      split at h
      · exact Except.noConfusion h
      · rename_i acc2 hins
        exact ih acc2 l
          (insertPage_keyed acc acc2 pid (TEntry.mk pid r.det r.num none) hacc rfl hins) h

/-- Pages dicts produced by a successful `Book.load` contain only
well-formed slots, justifying the hypothesis of `findMatching_spec`. -/
theorem bookLoadPages_wf (rs : List PageRec) (l : List (String × Slot))
    (h : bookLoadPages rs = .ok l) : ∀ kv ∈ l, slotWF kv.2 = true := by
  intro kv hkv
  have hkeyed := pagesInsert_keyed rs [] l (by simp) h kv hkv
  obtain ⟨k, s⟩ := kv
  cases s with
  | single e => rfl
  | group gid ps =>
    obtain ⟨hgid, hne, hall⟩ := hkeyed
    simp only [slotWF, Bool.and_eq_true, Bool.not_eq_eq_eq_not, Bool.not_true,
      List.all_eq_true, beq_iff_eq]
    constructor
    · cases ps with
      | nil => exact absurd rfl hne
      | cons x xs => rfl
    · intro x hx
      rw [hall x hx, hgid]

/-- Claim C1: once the rolled id is determined (the evaluator's value, or
`forced_roll` when truthy), `Table.roll` resolves exactly the entries —
with every group expanded into its constituent pages — whose `IdAsRange()`
contains the rolled id, processing them in the book's load order; stated
under the load invariant that groups are non-empty and their members carry
the group id. -/
theorem findMatching_spec (σ : Nat → Int) (fuel k : Nat) (die rop : String)
    (forced : Option Int) (slots : List Slot)
    (hwf : ∀ s ∈ slots, slotWF s = true) :
    (∀ rid : Int, findEntries rid slots = specFindMatching rid slots) ∧
    rollTblF σ (Nat.succ fuel) k (Tbl.mk die forced rop slots)
      = (match specFindMatching (pickRid forced (σ k)) slots with
         | none => none
         | some es =>
           rollLoopF (fun k2 st => rollTblF σ fuel k2 st) σ (k + 1) es ""
             [die ++ " -> **" ++ toString (pickRid forced (σ k)) ++ "**"]) := by
  have h := fun rid => findEntries_eq_spec rid slots hwf
  refine ⟨h, ?_⟩
  simp only [rollTblF, Tbl.forced, Tbl.slots, Tbl.die]
  rw [h]

/-- Witness for `findMatching_spec` on a table with an overlapping group
and single entry, rolled id `3`. -/
theorem findMatching_spec_witness :
    findEntries 3 sC1 = specFindMatching 3 sC1 ∧
    rollTblF (fun _ => 3) (Nat.succ 0) 0 (Tbl.mk "1d6" none "replace" sC1)
      = (match specFindMatching (pickRid none ((fun _ => (3 : Int)) 0)) sC1 with
         | none => none
         | some es =>
           rollLoopF (fun k2 st => rollTblF (fun _ => (3 : Int)) 0 k2 st)
             (fun _ => (3 : Int)) (0 + 1) es ""
             ["1d6" ++ " -> **" ++ toString (pickRid none ((fun _ => (3 : Int)) 0)) ++ "**"]) :=
  ⟨(findMatching_spec (fun _ => 3) 0 0 "1d6" "replace" none sC1 (by decide)).1 3,
   (findMatching_spec (fun _ => 3) 0 0 "1d6" "replace" none sC1 (by decide)).2⟩

end Books
